import Mathlib

/-!
# golang-country-search: the lookup pipeline

A shallow embedding of the service in `internal/`: the in-memory cache
(`cache/cache.go`), the upstream client (`client/client.go`), the lookup service
and its normalization (`service/countries.go`) and the request handler
(`handler/countries.go`).

Conventions of the embedding.

* A Go `string` is a Lean `String` (valid UTF-8 only).
* A Go `error` is represented by its message; `fmt.Errorf` with a trailing `%w` or
  `%s` verb is concatenation of the format's text with the operand's message.
* A Go `map` is an association list: a read returns the first binding of a key and a
  write replaces every binding of it. The order of the list is the order in which a
  `range` loop visits the entries.
* `context.Context`, the mutex of the cache and the `log.Printf` lines are left out:
  the model is sequential and logging is not observed.
* Calls made on collaborators (cache, client, service) are recorded in an event list,
  so that "is not invoked" is a statement about that list.
-/

namespace CountrySearch

/-! ## model/country.go -/

/-- Country: the country information returned by the API. -/
structure Country where
  Name : String
  Capital : String
  Currency : String
  Population : Int
deriving DecidableEq, Repr

/-- CountryName: the name structure in the upstream response. -/
structure CountryName where
  Common : String
  Official : String
deriving DecidableEq, Repr

/-- CurrencyInfo: the currency information in the upstream response. -/
structure CurrencyInfo where
  Name : String
  Symbol : String
deriving DecidableEq, Repr

/-- RESTCountryResponse: one upstream record. `Currencies` lists the entries of the Go
map in the order in which the `range` loop of `transformToCountry` visits them. -/
structure RESTCountryResponse where
  Name : CountryName
  Capital : List String
  Currencies : List (String × CurrencyInfo)
  Population : Int
deriving DecidableEq, Repr

/-- ErrorResponse: the standard error body. -/
structure ErrorResponse where
  Error : String
  Message : String
deriving DecidableEq, Repr

/-! ## Library functions used by the service -/

/-- IsSpace is Go's `unicode.IsSpace`: the Latin-1 white space runes and, above
Latin-1, the runes of the `White_Space` property. -/
def IsSpace (c : Char) : Bool :=
  let r := c.toNat
  if r ≤ 0xFF then
    r = 0x09 || r = 0x0A || r = 0x0B || r = 0x0C || r = 0x0D || r = 0x20 ||
      r = 0x85 || r = 0xA0
  else
    r = 0x1680 || (0x2000 ≤ r && r ≤ 0x200A) || r = 0x2028 || r = 0x2029 ||
      r = 0x202F || r = 0x205F || r = 0x3000

/-- TrimSpace is Go's `strings.TrimSpace`: all leading and trailing white space removed. -/
def TrimSpace (s : String) : String :=
  ⟨((s.data.dropWhile IsSpace).reverse.dropWhile IsSpace).reverse⟩

/-- ToLower is Go's `strings.ToLower`: every rune mapped by `unicode.ToLower`, which is
the parameter `lower` (the Unicode case tables are not part of the repository). -/
def ToLower (lower : Char → Char) (s : String) : String :=
  ⟨s.data.map lower⟩

/-- Contains is Go's `strings.Contains` (what `assert.Contains` checks on a message). -/
def Contains (s sub : String) : Prop :=
  sub.data <:+: s.data

instance (s sub : String) : Decidable (Contains s sub) := by
  unfold Contains; infer_instance

/-! ## cache/cache.go -/

/-- Value is a Go `interface{}` as the service can tell it apart: the nil interface, a
`*model.Country` (possibly a nil pointer), or a value of any other dynamic type. -/
inductive Value where
  | nil
  | country (p : Option Country)
  | other (tag : Nat)
deriving DecidableEq, Repr

/-- InMemoryCache: the `store` map of the cache. -/
structure InMemoryCache where
  store : List (String × Value)
deriving DecidableEq, Repr

/-- NewInMemoryCache creates an empty cache. -/
def NewInMemoryCache : InMemoryCache :=
  ⟨[]⟩

/-- Get retrieves a value by key: `value, exists := c.store[key]`. -/
def InMemoryCache.Get (c : InMemoryCache) (key : String) : Value × Bool :=
  match c.store.lookup key with
  | some v => (v, true)
  | none => (Value.nil, false)

/-- Set stores a value under the key: `c.store[key] = value`. -/
def InMemoryCache.Set (c : InMemoryCache) (key : String) (value : Value) : InMemoryCache :=
  ⟨(key, value) :: c.store.filter (fun kv => kv.1 ≠ key)⟩

/-! ## client/client.go -/

/-- CountryClient: the interface of the upstream client, `SearchCountryByName(ctx, name)`,
as a function from the name to the records or the error message. -/
abbrev CountryClient := String → Except String (List RESTCountryResponse)

/-- HTTPResponse: what the service reads of an `http.Response`. -/
structure HTTPResponse where
  StatusCode : Int
  Body : String
deriving DecidableEq, Repr

/-- HTTPClient: the client with its base URL; the library calls it makes are fields:
`url.PathEscape`, `http.NewRequestWithContext` (GET on the endpoint), `httpClient.Do`
and the JSON decoder of the body. -/
structure HTTPClient where
  baseURL : String
  PathEscape : String → String
  NewRequest : String → Except String String
  Do : String → Except String HTTPResponse
  Decode : String → Except String (List RESTCountryResponse)

/-- The endpoint requested for a name: `%s/name/%s?fullText=true`. -/
def HTTPClient.endpoint (c : HTTPClient) (name : String) : String :=
  c.baseURL ++ "/name/" ++ c.PathEscape name ++ "?fullText=true"

/-- SearchCountryByName searches for a country by its full name. -/
def HTTPClient.SearchCountryByName (c : HTTPClient) : CountryClient := fun name =>
  match c.NewRequest (c.endpoint name) with
  | .error e => .error ("SearchCountryByName: failed to create request: " ++ e)
  | .ok req =>
    match c.Do req with
    | .error e => .error ("SearchCountryByName: request execution failed: " ++ e)
    | .ok resp =>
      if resp.StatusCode = 404 then
        .error ("SearchCountryByName: country not found: " ++ name)
      else if resp.StatusCode ≠ 200 then
        .error ("SearchCountryByName: unexpected status code: " ++ toString resp.StatusCode)
      else
        match c.Decode resp.Body with
        | .error e => .error ("SearchCountryByName: failed to decode response: " ++ e)
        | .ok countries => .ok countries

/-! ## service/countries.go -/

/-- The `range` loop of `transformToCountry` over the currency entries, from the empty
`Currency`: the first entry with a non-empty symbol or a non-empty name ends the loop. -/
def currencyLoop : List (String × CurrencyInfo) → String
  | [] => ""
  | (_, currency) :: rest =>
    if currency.Symbol ≠ "" then currency.Symbol
    else if currency.Name ≠ "" then currency.Name
    else currencyLoop rest

/-- transformToCountry converts an upstream record to a Country. -/
def transformToCountry (apiResp : RESTCountryResponse) : Country :=
  { Name := apiResp.Name.Common
    Population := apiResp.Population
    Capital := match apiResp.Capital with
      | [] => ""
      | first :: _ => first
    Currency := currencyLoop apiResp.Currencies }

/-- Event: a call the service makes on one of its collaborators. -/
inductive Event where
  | cacheGet (key : String)
  | cacheSet (key : String) (value : Value)
  | clientCall (name : String)
deriving DecidableEq, Repr

/-- Outcome of one `SearchCountry` call: the returned pair `(*model.Country, error)`,
the cache afterwards and the calls made, in order. -/
structure Outcome where
  country : Option Country
  err : Option String
  cache : InMemoryCache
  events : List Event
deriving DecidableEq, Repr

/-- SearchCountry searches for a country by its name. -/
def SearchCountry (lower : Char → Char) (client : CountryClient) (cache : InMemoryCache)
    (name : String) : Outcome :=
  let name := TrimSpace name
  if name = "" then
    ⟨none, some "SearchCountry: country name cannot be empty", cache, []⟩
  else
    let cacheKey := ToLower lower name
    match cache.Get cacheKey with
    | (Value.country country, true) => ⟨country, none, cache, [Event.cacheGet cacheKey]⟩
    | _ =>
      match client name with
      | .error e =>
        ⟨none, some ("SearchCountry: failed to search country by name: " ++ e), cache,
          [Event.cacheGet cacheKey, Event.clientCall name]⟩
      | .ok [] =>
        ⟨none, some ("SearchCountry: no country data found for name: " ++ name), cache,
          [Event.cacheGet cacheKey, Event.clientCall name]⟩
      | .ok (first :: _) =>
        let country := transformToCountry first
        ⟨some country, none, cache.Set cacheKey (Value.country (some country)),
          [Event.cacheGet cacheKey, Event.clientCall name,
            Event.cacheSet cacheKey (Value.country (some country))]⟩

/-! ## handler/countries.go -/

/-- JSON: the values the handler writes. -/
inductive JSON where
  | null
  | str (s : String)
  | num (n : Int)
  | obj (fields : List (String × JSON))
deriving Repr

/-- Request: the method and the parsed query (`r.URL.Query()`) of an inbound request. -/
structure Request where
  Method : String
  Query : List (String × List String)
deriving DecidableEq, Repr

/-- The `Get` of `url.Values`: the first value of the key, or the empty string. -/
def queryGet (q : List (String × List String)) (key : String) : String :=
  match q.lookup key with
  | some (v :: _) => v
  | _ => ""

/-- Response: what the handler wrote: status, Content-Type header and encoded body. -/
structure Response where
  status : Nat
  contentType : String
  body : JSON
deriving Repr

/-- StatusText is `http.StatusText` on the status codes the handler uses. -/
def StatusText (status : Nat) : String :=
  if status = 200 then "OK"
  else if status = 400 then "Bad Request"
  else if status = 404 then "Not Found"
  else if status = 405 then "Method Not Allowed"
  else ""

/-- The JSON encoding of a `*model.Country` by its field tags. -/
def encodeCountry : Option Country → JSON
  | none => JSON.null
  | some c =>
    JSON.obj [("name", JSON.str c.Name), ("capital", JSON.str c.Capital),
      ("currency", JSON.str c.Currency), ("population", JSON.num c.Population)]

/-- The JSON encoding of an ErrorResponse: `message` carries `omitempty`. -/
def encodeError (e : ErrorResponse) : JSON :=
  JSON.obj (("error", JSON.str e.Error) ::
    (if e.Message = "" then [] else [("message", JSON.str e.Message)]))

/-- writeJSON writes the data as a JSON response with the status code. -/
def writeJSON (status : Nat) (data : JSON) : Response :=
  ⟨status, "application/json", data⟩

/-- writeError writes an error response with the status code and message. -/
def writeError (status : Nat) (message : String) : Response :=
  writeJSON status (encodeError ⟨StatusText status, message⟩)

/-- CountryService: the interface the handler calls, over the state `σ` the service
keeps between calls; a call returns the pair `(*model.Country, error)`. -/
abbrev CountryService (σ : Type) := σ → String → (Option Country × Option String) × σ

/-- The lookup service of `service/countries.go` as a CountryService over its cache. -/
def countryService (lower : Char → Char) (client : CountryClient) :
    CountryService InMemoryCache := fun cache name =>
  let o := SearchCountry lower client cache name
  ((o.country, o.err), o.cache)

/-- Handled: the response written, the state of the service afterwards and the names
the service was called with. -/
structure Handled (σ : Type) where
  response : Response
  state : σ
  calls : List String

/-- The handler method `CountryHandler.SearchCountry`. -/
def handleSearchCountry {σ : Type} (service : CountryService σ) (st : σ) (r : Request) :
    Handled σ :=
  if r.Method ≠ "GET" then
    ⟨writeError 405 "method not allowed", st, []⟩
  else
    let countryName := queryGet r.Query "name"
    if countryName = "" then
      ⟨writeError 400 "name query parameter is required", st, []⟩
    else
      match service st countryName with
      | ((_, some err), st') => ⟨writeError 404 err, st', [countryName]⟩
      | ((country, none), st') => ⟨writeJSON 200 (encodeCountry country), st', [countryName]⟩

/-! ## The relations the properties are stated with -/

/-- Two runes agree up to letter case: they are equal, or neither is white space and
`unicode.ToLower` sends both to the same rune. -/
def SameLetter (lower : Char → Char) (c c' : Char) : Prop :=
  c = c' ∨ (IsSpace c = false ∧ IsSpace c' = false ∧ lower c = lower c')

/-- The name `n'` differs from `n` only in letter case and in leading or trailing white
space: each is a core between two runs of white space, and the cores agree rune by rune
up to letter case. -/
def CaseSpaceVariant (lower : Char → Char) (n n' : String) : Prop :=
  ∃ l m r l' m' r' : List Char,
    n.data = l ++ m ++ r ∧ n'.data = l' ++ m' ++ r' ∧
    (∀ c ∈ l, IsSpace c = true) ∧ (∀ c ∈ r, IsSpace c = true) ∧
    (∀ c ∈ l', IsSpace c = true) ∧ (∀ c ∈ r', IsSpace c = true) ∧
    List.Forall₂ (SameLetter lower) m m'

/-- The cache after a sequence of `SearchCountry` calls, each with the client as it
answers at that call. -/
def runCalls (lower : Char → Char) :
    List (CountryClient × String) → InMemoryCache → InMemoryCache
  | [], cache => cache
  | (client, name) :: rest, cache =>
    runCalls lower rest (SearchCountry lower client cache name).cache

/-- The currency the two-pass reading selects: the symbol of the first entry whose symbol
is non-empty and, only when no entry has one, the name of the first entry whose name is
non-empty. -/
def currencySymbolFirst (entries : List (String × CurrencyInfo)) : String :=
  match entries.find? (fun e => e.2.Symbol ≠ "") with
  | some e => e.2.Symbol
  | none =>
    match entries.find? (fun e => e.2.Name ≠ "") with
    | some e => e.2.Name
    | none => ""

/-! ## Concrete data for the examples -/

/-- The upstream record of the tests for Germany. -/
def germanyRecord : RESTCountryResponse :=
  { Name := ⟨"Germany", "Federal Republic of Germany"⟩
    Capital := ["Berlin"]
    Currencies := [("EUR", ⟨"Euro", "€"⟩)]
    Population := 83240525 }

/-- A record with two currency entries, the first of them without a symbol. -/
def twoCurrencyRecord : RESTCountryResponse :=
  { Name := ⟨"Testland", "Testland"⟩
    Capital := []
    Currencies := [("AAA", ⟨"Dollar", ""⟩), ("BBB", ⟨"Euro", "€"⟩)]
    Population := 1 }

/-- A client that knows Germany only. -/
def germanyClient : CountryClient := fun name =>
  if name = "Germany" then .ok [germanyRecord, twoCurrencyRecord]
  else .error "SearchCountryByName: country not found: Atlantis"

/-- A client that fails on every name. -/
def failingClient : CountryClient := fun _ =>
  .error "SearchCountryByName: request execution failed: timeout"

/-- A client that answers every name with an empty list. -/
def emptyClient : CountryClient := fun _ => .ok []

/-- A GET request whose `name` parameter is three blanks. -/
def blankNameRequest : Request :=
  ⟨"GET", [("name", ["   "])]⟩

/-- A GET request without a `name` parameter. -/
def missingNameRequest : Request :=
  ⟨"GET", [("page", ["1"])]⟩

/-- A GET request whose `name` parameter is the empty string. -/
def emptyNameRequest : Request :=
  ⟨"GET", [("name", [""])]⟩

/-- An HTTP client whose upstream answers every request with status 404. -/
def notFoundUpstream : HTTPClient :=
  { baseURL := "https://restcountries.com/v3.1"
    PathEscape := fun name => name
    NewRequest := fun endpoint => .ok endpoint
    Do := fun _ => .ok ⟨404, ""⟩
    Decode := fun _ => .ok [] }

/-- A POST request that names Germany. -/
def postGermanyRequest : Request :=
  ⟨"POST", [("name", ["Germany"])]⟩

/-- A DELETE request without a query. -/
def deleteRequest : Request :=
  ⟨"DELETE", []⟩

/-- A GET request that names Germany. -/
def getGermanyRequest : Request :=
  ⟨"GET", [("name", ["Germany"])]⟩

/-- A GET request that names a country the upstream does not know. -/
def getAtlantisRequest : Request :=
  ⟨"GET", [("name", ["Atlantis"])]⟩

/-- The record `r` with its currency entries visited in the given order. -/
def withOrder (r : RESTCountryResponse) (order : List (String × CurrencyInfo)) :
    RESTCountryResponse :=
  { r with Currencies := order }

/-- An HTTP client whose upstream answers every request with status 500. -/
def serverErrorUpstream : HTTPClient :=
  { baseURL := "https://restcountries.com/v3.1"
    PathEscape := fun name => name
    NewRequest := fun endpoint => .ok endpoint
    Do := fun _ => .ok ⟨500, ""⟩
    Decode := fun _ => .ok [] }

/-- An HTTP client whose upstream answers 200 with a body the decoder rejects. -/
def invalidBodyUpstream : HTTPClient :=
  { baseURL := "https://restcountries.com/v3.1"
    PathEscape := fun name => name
    NewRequest := fun endpoint => .ok endpoint
    Do := fun _ => .ok ⟨200, "invalid json"⟩
    Decode := fun _ => .error "invalid character" }

/-- A record whose population is negative. -/
def negativeRecord : RESTCountryResponse :=
  { Name := ⟨"Nowhere", "Nowhere"⟩
    Capital := []
    Currencies := []
    Population := -1 }

/-- The client `c` with another JSON decoder. -/
def withDecoder (c : HTTPClient) (decode : String → Except String (List RESTCountryResponse)) :
    HTTPClient :=
  { c with Decode := decode }

/-! ## Lemmas on the cache -/

theorem lookup_filter_ne (k k' : String) (h : k' ≠ k) (l : List (String × Value)) :
    (l.filter (fun kv => kv.1 ≠ k)).lookup k' = l.lookup k' := by
  induction l with
  | nil => rfl
  | cons kv rest ih =>
    obtain ⟨a, v⟩ := kv
    by_cases ha : a = k
    · subst ha
      have hk : (k' == a) = false := by simpa using h
      simp only [List.filter_cons, List.lookup_cons, hk]
      simpa using ih
    · by_cases hk : k' = a
      · subst hk
        simp [List.filter_cons, ha]
      · have hk' : (k' == a) = false := by simpa using hk
        simp only [List.filter_cons, List.lookup_cons, hk']
        simpa [ha, List.lookup_cons, hk'] using ih

theorem get_set_self (c : InMemoryCache) (k : String) (v : Value) :
    (c.Set k v).Get k = (v, true) := by
  simp [InMemoryCache.Set, InMemoryCache.Get]

theorem get_set_of_ne (c : InMemoryCache) (k k' : String) (v : Value) (h : k' ≠ k) :
    (c.Set k v).Get k' = c.Get k' := by
  have hk : (k' == k) = false := by simpa using h
  simp only [InMemoryCache.Set, InMemoryCache.Get, List.lookup_cons, hk]
  rw [lookup_filter_ne k k' h]

/-! ## Lemmas on trimming and lowercasing -/

theorem dropWhile_append_of_all (p : Char → Bool) (l m : List Char)
    (h : ∀ c ∈ l, p c = true) : (l ++ m).dropWhile p = m.dropWhile p := by
  induction l with
  | nil => rfl
  | cons a l ih =>
    have ha : p a = true := h a (List.mem_cons_self a l)
    simp only [List.cons_append, List.dropWhile_cons, ha, if_true]
    exact ih (fun c hc => h c (List.mem_cons_of_mem a hc))

theorem dropWhile_eq_nil_of_all (p : Char → Bool) (l : List Char)
    (h : ∀ c ∈ l, p c = true) : l.dropWhile p = [] := by
  have := dropWhile_append_of_all p l [] h
  simpa using this

theorem rtrim_append_of_all (p : Char → Bool) (x r : List Char)
    (h : ∀ c ∈ r, p c = true) :
    ((x ++ r).dropWhile p).reverse.dropWhile p = (x.dropWhile p).reverse.dropWhile p := by
  induction x with
  | nil => simp [dropWhile_eq_nil_of_all p r h]
  | cons a x ih =>
    by_cases ha : p a = true
    · simpa [List.dropWhile_cons, ha] using ih
    · have ha' : p a = false := by simpa using ha
      simp only [List.cons_append, List.dropWhile_cons, ha', Bool.false_eq_true, if_false]
      have hr : ∀ c ∈ r.reverse, p c = true := fun c hc => h c (List.mem_reverse.mp hc)
      have : (a :: (x ++ r)).reverse = r.reverse ++ (a :: x).reverse := by simp
      rw [this, dropWhile_append_of_all p _ _ hr]

theorem trim_data_sandwich (l m r : List Char) (hl : ∀ c ∈ l, IsSpace c = true)
    (hr : ∀ c ∈ r, IsSpace c = true) :
    (TrimSpace ⟨l ++ m ++ r⟩).data = (TrimSpace ⟨m⟩).data := by
  simp only [TrimSpace, List.append_assoc]
  rw [dropWhile_append_of_all IsSpace l (m ++ r) hl, rtrim_append_of_all IsSpace m r hr]

theorem forall₂_dropWhile {R : Char → Char → Prop} (p : Char → Bool)
    (hp : ∀ c c', R c c' → p c = p c') {m m' : List Char} (h : List.Forall₂ R m m') :
    List.Forall₂ R (m.dropWhile p) (m'.dropWhile p) := by
  induction h with
  | nil => exact List.Forall₂.nil
  | @cons a b l l' hab hrest ih =>
    have hpab := hp a b hab
    by_cases ha : p a = true
    · have hb : p b = true := by rw [← hpab]; exact ha
      simpa [List.dropWhile_cons, ha, hb] using ih
    · have ha' : p a = false := by simpa using ha
      have hb : p b = false := by rw [← hpab]; exact ha'
      simpa [List.dropWhile_cons, ha', hb] using List.Forall₂.cons hab hrest

theorem sameLetter_isSpace (lower : Char → Char) (c c' : Char)
    (h : SameLetter lower c c') : IsSpace c = IsSpace c' := by
  rcases h with h | ⟨h1, h2, _⟩
  · rw [h]
  · rw [h1, h2]

theorem sameLetter_lower (lower : Char → Char) (c c' : Char)
    (h : SameLetter lower c c') : lower c = lower c' := by
  rcases h with h | ⟨_, _, h3⟩
  · rw [h]
  · exact h3

theorem forall₂_trim (lower : Char → Char) {m m' : List Char}
    (h : List.Forall₂ (SameLetter lower) m m') :
    List.Forall₂ (SameLetter lower) (TrimSpace ⟨m⟩).data (TrimSpace ⟨m'⟩).data := by
  simp only [TrimSpace]
  apply List.forall₂_reverse_iff.mpr
  apply forall₂_dropWhile IsSpace (sameLetter_isSpace lower)
  apply List.forall₂_reverse_iff.mpr
  exact forall₂_dropWhile IsSpace (sameLetter_isSpace lower) h

theorem map_lower_of_forall₂ (lower : Char → Char) {m m' : List Char}
    (h : List.Forall₂ (SameLetter lower) m m') : m.map lower = m'.map lower := by
  induction h with
  | nil => rfl
  | cons hab _ ih => simp [sameLetter_lower lower _ _ hab, ih]

theorem variant_trim (lower : Char → Char) (n n' : String)
    (h : CaseSpaceVariant lower n n') :
    List.Forall₂ (SameLetter lower) (TrimSpace n).data (TrimSpace n').data := by
  obtain ⟨l, m, r, l', m', r', hn, hn', hl, hr, hl', hr', hm⟩ := h
  have e1 : n = ⟨l ++ m ++ r⟩ := by cases n; simp_all
  have e2 : n' = ⟨l' ++ m' ++ r'⟩ := by cases n'; simp_all
  rw [e1, e2, trim_data_sandwich l m r hl hr, trim_data_sandwich l' m' r' hl' hr']
  exact forall₂_trim lower hm

theorem variant_key (lower : Char → Char) (n n' : String)
    (h : CaseSpaceVariant lower n n') :
    ToLower lower (TrimSpace n') = ToLower lower (TrimSpace n) := by
  have := map_lower_of_forall₂ lower (variant_trim lower n n' h)
  simp [ToLower, this]

theorem variant_nonempty (lower : Char → Char) (n n' : String)
    (h : CaseSpaceVariant lower n n') (hn : TrimSpace n ≠ "") : TrimSpace n' ≠ "" := by
  have hlen := (variant_trim lower n n' h).length_eq
  intro h'
  apply hn
  rw [h'] at hlen
  have : (TrimSpace n).data = [] := List.length_eq_zero.mp (hlen.trans rfl)
  cases hs : TrimSpace n with
  | mk d => rw [hs] at this; simp_all

/-! ## The branches of `SearchCountry` -/

theorem searchCountry_empty (lower : Char → Char) (client : CountryClient)
    (cache : InMemoryCache) (name : String) (h : TrimSpace name = "") :
    SearchCountry lower client cache name =
      ⟨none, some "SearchCountry: country name cannot be empty", cache, []⟩ := by
  simp [SearchCountry, h]

theorem searchCountry_hit (lower : Char → Char) (client : CountryClient)
    (cache : InMemoryCache) (name : String) (p : Option Country)
    (h : TrimSpace name ≠ "")
    (hget : cache.Get (ToLower lower (TrimSpace name)) = (Value.country p, true)) :
    SearchCountry lower client cache name =
      ⟨p, none, cache, [Event.cacheGet (ToLower lower (TrimSpace name))]⟩ := by
  simp [SearchCountry, h, hget]

theorem searchCountry_miss (lower : Char → Char) (client : CountryClient)
    (cache : InMemoryCache) (name : String) (h : TrimSpace name ≠ "")
    (hmiss : ∀ p, cache.Get (ToLower lower (TrimSpace name)) ≠ (Value.country p, true)) :
    SearchCountry lower client cache name =
      match client (TrimSpace name) with
      | .error e =>
        ⟨none, some ("SearchCountry: failed to search country by name: " ++ e), cache,
          [Event.cacheGet (ToLower lower (TrimSpace name)),
            Event.clientCall (TrimSpace name)]⟩
      | .ok [] =>
        ⟨none, some ("SearchCountry: no country data found for name: " ++ TrimSpace name),
          cache,
          [Event.cacheGet (ToLower lower (TrimSpace name)),
            Event.clientCall (TrimSpace name)]⟩
      | .ok (first :: _) =>
        ⟨some (transformToCountry first), none,
          cache.Set (ToLower lower (TrimSpace name))
            (Value.country (some (transformToCountry first))),
          [Event.cacheGet (ToLower lower (TrimSpace name)),
            Event.clientCall (TrimSpace name),
            Event.cacheSet (ToLower lower (TrimSpace name))
              (Value.country (some (transformToCountry first)))]⟩ := by
  simp only [SearchCountry, h, if_false]

theorem hit_or_miss (cache : InMemoryCache) (key : String) :
    (∃ p, cache.Get key = (Value.country p, true)) ∨
      (∀ p, cache.Get key ≠ (Value.country p, true)) := by
  by_cases h : ∃ p, cache.Get key = (Value.country p, true)
  · exact Or.inl h
  · exact Or.inr (fun p hp => h ⟨p, hp⟩)

theorem get_false_miss (cache : InMemoryCache) (key : String)
    (h : (cache.Get key).2 = false) : ∀ p, cache.Get key ≠ (Value.country p, true) := by
  intro p hp
  rw [hp] at h
  exact Bool.noConfusion h

theorem searchCountry_keeps_hit (lower : Char → Char) (client : CountryClient)
    (cache : InMemoryCache) (name key : String) (p : Option Country)
    (hkey : cache.Get key = (Value.country p, true)) :
    (SearchCountry lower client cache name).cache.Get key = (Value.country p, true) := by
  by_cases h : TrimSpace name = ""
  · rw [searchCountry_empty lower client cache name h]; exact hkey
  · rcases hit_or_miss cache (ToLower lower (TrimSpace name)) with ⟨q, hq⟩ | hmiss
    · rw [searchCountry_hit lower client cache name q h hq]; exact hkey
    · rw [searchCountry_miss lower client cache name h hmiss]
      have hne : key ≠ ToLower lower (TrimSpace name) := by
        intro e
        rw [e] at hkey
        exact hmiss p hkey
      split
      · exact hkey
      · exact hkey
      · simp only []
        rw [get_set_of_ne cache _ key _ hne]
        exact hkey

theorem runCalls_keeps_hit (lower : Char → Char) (calls : List (CountryClient × String))
    (cache : InMemoryCache) (key : String) (p : Option Country)
    (hkey : cache.Get key = (Value.country p, true)) :
    (runCalls lower calls cache).Get key = (Value.country p, true) := by
  induction calls generalizing cache with
  | nil => exact hkey
  | cons call rest ih =>
    obtain ⟨client, name⟩ := call
    exact ih _ (searchCountry_keeps_hit lower client cache name key p hkey)

theorem searchCountry_ok_cached (lower : Char → Char) (client : CountryClient)
    (cache : InMemoryCache) (name : String)
    (hok : (SearchCountry lower client cache name).err = none) :
    (SearchCountry lower client cache name).cache.Get (ToLower lower (TrimSpace name)) =
      (Value.country (SearchCountry lower client cache name).country, true) := by
  by_cases h : TrimSpace name = ""
  · rw [searchCountry_empty lower client cache name h] at hok
    exact absurd hok (by simp)
  · rcases hit_or_miss cache (ToLower lower (TrimSpace name)) with ⟨q, hq⟩ | hmiss
    · rw [searchCountry_hit lower client cache name q h hq]; exact hq
    · rw [searchCountry_miss lower client cache name h hmiss] at hok ⊢
      split at hok
      · exact absurd hok (by simp)
      · exact absurd hok (by simp)
      · next first rest hcl =>
        simp only [hcl]
        exact get_set_self cache _ _

/-! ## The lookup service: cache hits and invalid input -/

/-- C1: for a name `n` whose trimmed form is non-empty, once `SearchCountry n` has
succeeded against an in-memory cache, then after any further calls on that cache a call
`SearchCountry n'`, for `n'` differing from `n` only in letter case and in leading or
trailing white space, returns the Country of the first call with no error, makes the
single call `cache.Get` on the key of `n`, never calls the client, and leaves the cache
as it is. -/
theorem cached_variant_lookup (lower : Char → Char) (client client' : CountryClient)
    (cache : InMemoryCache) (between : List (CountryClient × String)) (n n' : String)
    (hne : TrimSpace n ≠ "") (hok : (SearchCountry lower client cache n).err = none)
    (hv : CaseSpaceVariant lower n n') :
    SearchCountry lower client'
        (runCalls lower between (SearchCountry lower client cache n).cache) n' =
      ⟨(SearchCountry lower client cache n).country, none,
        runCalls lower between (SearchCountry lower client cache n).cache,
        [Event.cacheGet (ToLower lower (TrimSpace n))]⟩ ∧
    ∀ x, Event.clientCall x ∉ (SearchCountry lower client'
        (runCalls lower between (SearchCountry lower client cache n).cache) n').events := by
  have hcached := searchCountry_ok_cached lower client cache n hok
  have hkept := runCalls_keeps_hit lower between _ _ _ hcached
  have hne' := variant_nonempty lower n n' hv hne
  have hkey := variant_key lower n n' hv
  rw [← hkey] at hkept
  have hcall := searchCountry_hit lower client' _ n' _ hne' hkept
  rw [hkey] at hcall
  refine ⟨hcall, ?_⟩
  intro x hx
  rw [hcall] at hx
  simp at hx

theorem cached_variant_lookup_witness :
    TrimSpace "Germany" ≠ "" ∧
    (SearchCountry Char.toLower germanyClient NewInMemoryCache "Germany").err = none ∧
    CaseSpaceVariant Char.toLower "Germany" "  GERMANY " ∧
    (SearchCountry Char.toLower failingClient
        (runCalls Char.toLower [(emptyClient, "France")]
          (SearchCountry Char.toLower germanyClient NewInMemoryCache "Germany").cache)
        "  GERMANY " =
      ⟨(SearchCountry Char.toLower germanyClient NewInMemoryCache "Germany").country, none,
        runCalls Char.toLower [(emptyClient, "France")]
          (SearchCountry Char.toLower germanyClient NewInMemoryCache "Germany").cache,
        [Event.cacheGet (ToLower Char.toLower (TrimSpace "Germany"))]⟩ ∧
    ∀ x, Event.clientCall x ∉ (SearchCountry Char.toLower failingClient
        (runCalls Char.toLower [(emptyClient, "France")]
          (SearchCountry Char.toLower germanyClient NewInMemoryCache "Germany").cache)
        "  GERMANY ").events) :=
  have h1 : TrimSpace "Germany" ≠ "" := by decide
  have h2 : (SearchCountry Char.toLower germanyClient NewInMemoryCache "Germany").err = none := by
    decide
  have h3 : CaseSpaceVariant Char.toLower "Germany" "  GERMANY " :=
    ⟨[], "Germany".data, [], [' ', ' '], "GERMANY".data, [' '], rfl, rfl,
      by decide, by decide, by decide, by decide,
      List.Forall₂.cons (Or.inl rfl)
        (List.Forall₂.cons (Or.inr ⟨by decide, by decide, by decide⟩)
        (List.Forall₂.cons (Or.inr ⟨by decide, by decide, by decide⟩)
        (List.Forall₂.cons (Or.inr ⟨by decide, by decide, by decide⟩)
        (List.Forall₂.cons (Or.inr ⟨by decide, by decide, by decide⟩)
        (List.Forall₂.cons (Or.inr ⟨by decide, by decide, by decide⟩)
        (List.Forall₂.cons (Or.inr ⟨by decide, by decide, by decide⟩)
          List.Forall₂.nil))))))⟩
  ⟨h1, h2, h3, cached_variant_lookup Char.toLower germanyClient failingClient
    NewInMemoryCache [(emptyClient, "France")] "Germany" "  GERMANY " h1 h2 h3⟩

/-- C2: for a name that is empty after trimming white space, `SearchCountry` returns no
Country and an error whose message contains "cannot be empty"; it makes no call at all
(no `cache.Get`, no `cache.Set`, no client call) and the cache is unchanged. -/
theorem empty_name_rejected (lower : Char → Char) (client : CountryClient)
    (cache : InMemoryCache) (name : String) (h : TrimSpace name = "") :
    (SearchCountry lower client cache name).country = none ∧
    (∃ msg, (SearchCountry lower client cache name).err = some msg ∧
      Contains msg "cannot be empty") ∧
    (SearchCountry lower client cache name).events = [] ∧
    (SearchCountry lower client cache name).cache = cache := by
  rw [searchCountry_empty lower client cache name h]
  exact ⟨rfl, ⟨_, rfl, by decide⟩, rfl, rfl⟩

theorem empty_name_rejected_witness :
    (TrimSpace "" = "" ∧ TrimSpace "   " = "") ∧
    ((SearchCountry Char.toLower germanyClient NewInMemoryCache "   ").country = none ∧
    (∃ msg, (SearchCountry Char.toLower germanyClient NewInMemoryCache "   ").err = some msg ∧
      Contains msg "cannot be empty") ∧
    (SearchCountry Char.toLower germanyClient NewInMemoryCache "   ").events = [] ∧
    (SearchCountry Char.toLower germanyClient NewInMemoryCache "   ").cache =
      NewInMemoryCache) :=
  ⟨⟨by decide, by decide⟩,
    empty_name_rejected Char.toLower germanyClient NewInMemoryCache "   " (by decide)⟩

/-! ## Normalization -/

theorem currencyLoop_eq_find (entries : List (String × CurrencyInfo)) :
    currencyLoop entries =
      match entries.find? (fun e => e.2.Symbol ≠ "" ∨ e.2.Name ≠ "") with
      | some e => if e.2.Symbol ≠ "" then e.2.Symbol else e.2.Name
      | none => "" := by
  induction entries with
  | nil => rfl
  | cons entry rest ih =>
    obtain ⟨code, currency⟩ := entry
    by_cases hs : currency.Symbol = ""
    · by_cases hn : currency.Name = ""
      · simp [currencyLoop, List.find?_cons, hs, hn, ih]
      · simp [currencyLoop, List.find?_cons, hs, hn]
    · simp [currencyLoop, List.find?_cons, hs]

/-- C3 (as stated, refuted): on a record whose first currency entry has a name and no
symbol and whose second entry has a symbol, `transformToCountry` takes the name of the
first entry, not the symbol of the first entry that has one. -/
theorem currency_symbol_first_refuted :
    (transformToCountry twoCurrencyRecord).Currency = "Dollar" ∧
    currencySymbolFirst twoCurrencyRecord.Currencies = "€" ∧
    (transformToCountry twoCurrencyRecord).Currency ≠
      currencySymbolFirst twoCurrencyRecord.Currencies := by
  decide

/-- C3 (amended): for every record and every iteration order of its currency map,
`transformToCountry` sets Currency from the first entry in that order that has a
non-empty symbol or a non-empty name: to that entry's symbol when it is non-empty and
to its name otherwise; Currency is empty when no entry has either. -/
theorem currency_first_usable_entry (r : RESTCountryResponse) :
    (transformToCountry r).Currency =
      match r.Currencies.find? (fun e => e.2.Symbol ≠ "" ∨ e.2.Name ≠ "") with
      | some e => if e.2.Symbol ≠ "" then e.2.Symbol else e.2.Name
      | none => "" := by
  simp only [transformToCountry]
  exact currencyLoop_eq_find r.Currencies

/-- C4: for every record `r`, `transformToCountry r` has Name equal to the common name of
`r`, Population equal to the population of `r` (whatever it is, zero included), and
Capital equal to the first element of the capital list of `r`, or to the empty string
when that list is empty. -/
theorem transform_name_population_capital (r : RESTCountryResponse) :
    (transformToCountry r).Name = r.Name.Common ∧
    (transformToCountry r).Population = r.Population ∧
    (transformToCountry r).Capital = r.Capital.headD "" := by
  refine ⟨rfl, rfl, ?_⟩
  cases hc : r.Capital <;> simp [transformToCountry, hc]

/-! ## The lookup service: cache misses -/

/-- C5: for a name with a non-empty trimmed form that misses the cache, when the client
returns a non-empty list of records, `SearchCountry` succeeds, the Country returned is
the normalization of the first record (whatever the later records are), and the cache
afterwards holds that Country under the key `lowercase(trim(name))`. -/
theorem miss_fetches_first_record (lower : Char → Char) (client : CountryClient)
    (cache : InMemoryCache) (name : String) (first : RESTCountryResponse)
    (rest : List RESTCountryResponse) (hne : TrimSpace name ≠ "")
    (hmiss : (cache.Get (ToLower lower (TrimSpace name))).2 = false)
    (hcl : client (TrimSpace name) = .ok (first :: rest)) :
    (SearchCountry lower client cache name).err = none ∧
    (SearchCountry lower client cache name).country = some (transformToCountry first) ∧
    (SearchCountry lower client cache name).cache.Get (ToLower lower (TrimSpace name)) =
      (Value.country (some (transformToCountry first)), true) := by
  rw [searchCountry_miss lower client cache name hne (get_false_miss cache _ hmiss), hcl]
  exact ⟨rfl, rfl, get_set_self cache _ _⟩

theorem miss_fetches_first_record_witness :
    TrimSpace " Germany" ≠ "" ∧
    (NewInMemoryCache.Get (ToLower Char.toLower (TrimSpace " Germany"))).2 = false ∧
    germanyClient (TrimSpace " Germany") = .ok [germanyRecord, twoCurrencyRecord] ∧
    ((SearchCountry Char.toLower germanyClient NewInMemoryCache " Germany").err = none ∧
    (SearchCountry Char.toLower germanyClient NewInMemoryCache " Germany").country =
      some (transformToCountry germanyRecord) ∧
    (SearchCountry Char.toLower germanyClient NewInMemoryCache " Germany").cache.Get
        (ToLower Char.toLower (TrimSpace " Germany")) =
      (Value.country (some (transformToCountry germanyRecord)), true)) :=
  have h1 : TrimSpace " Germany" ≠ "" := by decide
  have h2 : (NewInMemoryCache.Get (ToLower Char.toLower (TrimSpace " Germany"))).2 = false :=
    by decide
  have h3 : germanyClient (TrimSpace " Germany") = .ok [germanyRecord, twoCurrencyRecord] :=
    by rfl
  ⟨h1, h2, h3, miss_fetches_first_record Char.toLower germanyClient NewInMemoryCache
    " Germany" germanyRecord [twoCurrencyRecord] h1 h2 h3⟩

theorem contains_append_left (a b sub : String) (h : Contains a sub) :
    Contains (a ++ b) sub := by
  obtain ⟨s, t, hst⟩ := h
  exact ⟨s, t ++ b.data, by simp [← hst]⟩

theorem contains_append_right (a b sub : String) (h : Contains b sub) :
    Contains (a ++ b) sub := by
  obtain ⟨s, t, hst⟩ := h
  exact ⟨a.data ++ s, t, by simp [← hst]⟩

theorem contains_self (a : String) : Contains a a :=
  ⟨[], [], by simp⟩

theorem searchCountry_err_unchanged (lower : Char → Char) (client : CountryClient)
    (cache : InMemoryCache) (name : String)
    (herr : (SearchCountry lower client cache name).err ≠ none) :
    (SearchCountry lower client cache name).cache = cache ∧
    ∀ k v, Event.cacheSet k v ∉ (SearchCountry lower client cache name).events := by
  by_cases h : TrimSpace name = ""
  · rw [searchCountry_empty lower client cache name h]; simp
  · rcases hit_or_miss cache (ToLower lower (TrimSpace name)) with ⟨q, hq⟩ | hmiss
    · rw [searchCountry_hit lower client cache name q h hq]; simp
    · rw [searchCountry_miss lower client cache name h hmiss] at herr ⊢
      split at herr
      · next e hcl => simp [hcl]
      · next hcl => simp [hcl]
      · exact absurd rfl herr

theorem searchCountry_write_or_not (lower : Char → Char) (client : CountryClient)
    (cache : InMemoryCache) (name : String) :
    ((SearchCountry lower client cache name).cache = cache ∧
      ∀ k v, Event.cacheSet k v ∉ (SearchCountry lower client cache name).events) ∨
    ∃ first rest, client (TrimSpace name) = .ok (first :: rest) ∧
      (SearchCountry lower client cache name).err = none ∧
      (SearchCountry lower client cache name).country = some (transformToCountry first) ∧
      (SearchCountry lower client cache name).cache =
        cache.Set (ToLower lower (TrimSpace name))
          (Value.country (some (transformToCountry first))) := by
  by_cases h : TrimSpace name = ""
  · left; rw [searchCountry_empty lower client cache name h]; simp
  · rcases hit_or_miss cache (ToLower lower (TrimSpace name)) with ⟨q, hq⟩ | hmiss
    · left; rw [searchCountry_hit lower client cache name q h hq]; simp
    · rw [searchCountry_miss lower client cache name h hmiss]
      cases hcl : client (TrimSpace name) with
      | error e => left; simp
      | ok records =>
        cases records with
        | nil => left; simp
        | cons first rest => right; exact ⟨first, rest, rfl, rfl, rfl, rfl⟩

/-- C6: for every cache state and every name, whenever `SearchCountry` returns an error
the cache is exactly as it was before the call and no `cache.Set` was made; and whenever
the call changes the cache or makes a `cache.Set`, the client answered with a non-empty
list, the call returns without error the Country normalized from the first record, and
the cache is the old one with that Country set under the key. -/
theorem errors_leave_cache (lower : Char → Char) (client : CountryClient)
    (cache : InMemoryCache) (name : String) :
    ((SearchCountry lower client cache name).err ≠ none →
      (SearchCountry lower client cache name).cache = cache ∧
      ∀ k v, Event.cacheSet k v ∉ (SearchCountry lower client cache name).events) ∧
    (((SearchCountry lower client cache name).cache ≠ cache ∨
        ∃ k v, Event.cacheSet k v ∈ (SearchCountry lower client cache name).events) →
      ∃ first rest, client (TrimSpace name) = .ok (first :: rest) ∧
        (SearchCountry lower client cache name).err = none ∧
        (SearchCountry lower client cache name).country = some (transformToCountry first) ∧
        (SearchCountry lower client cache name).cache =
          cache.Set (ToLower lower (TrimSpace name))
            (Value.country (some (transformToCountry first)))) := by
  refine ⟨searchCountry_err_unchanged lower client cache name, ?_⟩
  intro hw
  rcases searchCountry_write_or_not lower client cache name with ⟨hc, hs⟩ | hset
  · rcases hw with hw | ⟨k, v, hkv⟩
    · exact absurd hc hw
    · exact absurd hkv (hs k v)
  · exact hset

theorem errors_leave_cache_witness :
    (SearchCountry Char.toLower failingClient
      (NewInMemoryCache.Set "germany" (Value.other 7)) "France").err ≠ none ∧
    ((SearchCountry Char.toLower failingClient
        (NewInMemoryCache.Set "germany" (Value.other 7)) "France").cache =
        NewInMemoryCache.Set "germany" (Value.other 7) ∧
      ∀ k v, Event.cacheSet k v ∉ (SearchCountry Char.toLower failingClient
        (NewInMemoryCache.Set "germany" (Value.other 7)) "France").events) ∧
    (SearchCountry Char.toLower emptyClient NewInMemoryCache "France").err ≠ none ∧
    ((SearchCountry Char.toLower emptyClient NewInMemoryCache "France").cache =
        NewInMemoryCache ∧
      ∀ k v, Event.cacheSet k v ∉
        (SearchCountry Char.toLower emptyClient NewInMemoryCache "France").events) ∧
    (SearchCountry Char.toLower germanyClient NewInMemoryCache "Germany").cache ≠
      NewInMemoryCache ∧
    (∃ first rest, germanyClient (TrimSpace "Germany") = .ok (first :: rest) ∧
      (SearchCountry Char.toLower germanyClient NewInMemoryCache "Germany").err = none ∧
      (SearchCountry Char.toLower germanyClient NewInMemoryCache "Germany").country =
        some (transformToCountry first) ∧
      (SearchCountry Char.toLower germanyClient NewInMemoryCache "Germany").cache =
        NewInMemoryCache.Set (ToLower Char.toLower (TrimSpace "Germany"))
          (Value.country (some (transformToCountry first)))) :=
  have h1 : (SearchCountry Char.toLower failingClient
      (NewInMemoryCache.Set "germany" (Value.other 7)) "France").err ≠ none := by decide
  have h2 : (SearchCountry Char.toLower emptyClient NewInMemoryCache "France").err ≠ none := by
    decide
  have h3 : (SearchCountry Char.toLower germanyClient NewInMemoryCache "Germany").cache ≠
      NewInMemoryCache := by decide
  ⟨h1, (errors_leave_cache Char.toLower failingClient
      (NewInMemoryCache.Set "germany" (Value.other 7)) "France").1 h1,
    h2, (errors_leave_cache Char.toLower emptyClient NewInMemoryCache "France").1 h2,
    h3, (errors_leave_cache Char.toLower germanyClient NewInMemoryCache "Germany").2
      (Or.inl h3)⟩

/-- C7: for a name with a non-empty trimmed form that misses the cache, when the client
fails with error `e`, `SearchCountry` returns no Country and the error whose message is
"SearchCountry: failed to search country by name: " followed by the message of `e`; in
particular, when the client is the HTTP client and the upstream answers 404, the message
contains "not found". -/
theorem client_error_wrapped (lower : Char → Char) (client : CountryClient)
    (cache : InMemoryCache) (name e : String) (hne : TrimSpace name ≠ "")
    (hmiss : (cache.Get (ToLower lower (TrimSpace name))).2 = false)
    (hcl : client (TrimSpace name) = .error e) :
    (SearchCountry lower client cache name).country = none ∧
    (SearchCountry lower client cache name).err =
      some ("SearchCountry: failed to search country by name: " ++ e) ∧
    ∀ (c : HTTPClient) (req : String) (resp : HTTPResponse),
      client = c.SearchCountryByName → c.NewRequest (c.endpoint (TrimSpace name)) = .ok req →
      c.Do req = .ok resp → resp.StatusCode = 404 →
      Contains ("SearchCountry: failed to search country by name: " ++ e) "not found" := by
  rw [searchCountry_miss lower client cache name hne (get_false_miss cache _ hmiss), hcl]
  refine ⟨rfl, rfl, ?_⟩
  intro c req resp hc hreq hdo hst
  rw [hc] at hcl
  simp only [HTTPClient.SearchCountryByName, hreq, hdo, hst, if_true] at hcl
  have he : e = "SearchCountryByName: country not found: " ++ TrimSpace name := by
    injection hcl with hcl
    exact hcl.symm
  rw [he]
  apply contains_append_right
  apply contains_append_left
  decide

theorem client_error_wrapped_witness :
    TrimSpace "Atlantis " ≠ "" ∧
    (NewInMemoryCache.Get (ToLower Char.toLower (TrimSpace "Atlantis "))).2 = false ∧
    notFoundUpstream.SearchCountryByName (TrimSpace "Atlantis ") =
      .error "SearchCountryByName: country not found: Atlantis" ∧
    ((SearchCountry Char.toLower notFoundUpstream.SearchCountryByName NewInMemoryCache
      "Atlantis ").country = none ∧
    (SearchCountry Char.toLower notFoundUpstream.SearchCountryByName NewInMemoryCache
      "Atlantis ").err =
      some ("SearchCountry: failed to search country by name: " ++
        "SearchCountryByName: country not found: Atlantis") ∧
    Contains ("SearchCountry: failed to search country by name: " ++
        "SearchCountryByName: country not found: Atlantis") "not found") :=
  have h1 : TrimSpace "Atlantis " ≠ "" := by decide
  have h2 : (NewInMemoryCache.Get (ToLower Char.toLower (TrimSpace "Atlantis "))).2 = false :=
    by decide
  have h3 : notFoundUpstream.SearchCountryByName (TrimSpace "Atlantis ") =
      .error "SearchCountryByName: country not found: Atlantis" := by rfl
  have h := client_error_wrapped Char.toLower notFoundUpstream.SearchCountryByName
    NewInMemoryCache "Atlantis " "SearchCountryByName: country not found: Atlantis" h1 h2 h3
  ⟨h1, h2, h3, h.1, h.2.1,
    h.2.2 notFoundUpstream
      (notFoundUpstream.endpoint (TrimSpace "Atlantis ")) ⟨404, ""⟩ rfl rfl rfl rfl⟩

/-- C8: for a name with a non-empty trimmed form that misses the cache, when the client
succeeds with an empty list of records, `SearchCountry` returns no Country and an error
whose message contains "no country data found" and the trimmed name. -/
theorem empty_response_rejected (lower : Char → Char) (client : CountryClient)
    (cache : InMemoryCache) (name : String) (hne : TrimSpace name ≠ "")
    (hmiss : (cache.Get (ToLower lower (TrimSpace name))).2 = false)
    (hcl : client (TrimSpace name) = .ok []) :
    (SearchCountry lower client cache name).country = none ∧
    (SearchCountry lower client cache name).err =
      some ("SearchCountry: no country data found for name: " ++ TrimSpace name) ∧
    Contains ("SearchCountry: no country data found for name: " ++ TrimSpace name)
      "no country data found" ∧
    Contains ("SearchCountry: no country data found for name: " ++ TrimSpace name)
      (TrimSpace name) := by
  rw [searchCountry_miss lower client cache name hne (get_false_miss cache _ hmiss), hcl]
  refine ⟨rfl, rfl, ?_, ?_⟩
  · apply contains_append_left
    decide
  · exact contains_append_right _ _ _ (contains_self _)

theorem empty_response_rejected_witness :
    TrimSpace " Unknown " ≠ "" ∧
    (NewInMemoryCache.Get (ToLower Char.toLower (TrimSpace " Unknown "))).2 = false ∧
    emptyClient (TrimSpace " Unknown ") = .ok [] ∧
    ((SearchCountry Char.toLower emptyClient NewInMemoryCache " Unknown ").country = none ∧
    (SearchCountry Char.toLower emptyClient NewInMemoryCache " Unknown ").err =
      some ("SearchCountry: no country data found for name: " ++ TrimSpace " Unknown ") ∧
    Contains ("SearchCountry: no country data found for name: " ++ TrimSpace " Unknown ")
      "no country data found" ∧
    Contains ("SearchCountry: no country data found for name: " ++ TrimSpace " Unknown ")
      (TrimSpace " Unknown ")) :=
  have h1 : TrimSpace " Unknown " ≠ "" := by decide
  have h2 : (NewInMemoryCache.Get (ToLower Char.toLower (TrimSpace " Unknown "))).2 = false :=
    by decide
  ⟨h1, h2, rfl, empty_response_rejected Char.toLower emptyClient NewInMemoryCache
    " Unknown " h1 h2 rfl⟩

/-! ## The request handler -/

theorem handle_get_empty {σ : Type} (service : CountryService σ) (st : σ) (r : Request)
    (hm : r.Method = "GET") (hn : queryGet r.Query "name" = "") :
    handleSearchCountry service st r =
      ⟨writeError 400 "name query parameter is required", st, []⟩ := by
  simp [handleSearchCountry, hm, hn]

theorem handle_get_error {σ : Type} (service : CountryService σ) (st st' : σ) (r : Request)
    (country : Option Country) (err : String)
    (hm : r.Method = "GET") (hn : queryGet r.Query "name" ≠ "")
    (hs : service st (queryGet r.Query "name") = ((country, some err), st')) :
    handleSearchCountry service st r =
      ⟨writeError 404 err, st', [queryGet r.Query "name"]⟩ := by
  simp [handleSearchCountry, hm, hn, hs]

/-- C9 (as stated, refuted): a GET request whose `name` parameter is three blanks is empty
after trimming, yet the handler composed with the lookup service answers 404, not 400. -/
theorem blank_name_status_refuted :
    blankNameRequest.Method = "GET" ∧
    TrimSpace (queryGet blankNameRequest.Query "name") = "" ∧
    (handleSearchCountry (countryService Char.toLower germanyClient) NewInMemoryCache
      blankNameRequest).response.status = 404 ∧
    (handleSearchCountry (countryService Char.toLower germanyClient) NewInMemoryCache
      blankNameRequest).response.status ≠ 400 := by
  decide

/-- C9 (amended): for every GET request whose `name` query parameter is empty after
trimming white space, the handler composed with the lookup service responds with status
400 when the parameter is missing or the empty string, and with status 404, error
"Not Found" and message "SearchCountry: country name cannot be empty" when it is a
non-empty value of white space only. -/
theorem blank_name_status (lower : Char → Char) (client : CountryClient)
    (cache : InMemoryCache) (r : Request) (hm : r.Method = "GET")
    (hb : TrimSpace (queryGet r.Query "name") = "") :
    (queryGet r.Query "name" = "" →
      (handleSearchCountry (countryService lower client) cache r).response.status = 400) ∧
    (queryGet r.Query "name" ≠ "" →
      (handleSearchCountry (countryService lower client) cache r).response.status = 404 ∧
      (handleSearchCountry (countryService lower client) cache r).response.body =
        JSON.obj [("error", JSON.str "Not Found"),
          ("message", JSON.str "SearchCountry: country name cannot be empty")]) := by
  have hsvc : countryService lower client cache (queryGet r.Query "name") =
      ((none, some "SearchCountry: country name cannot be empty"), cache) := by
    simp [countryService, searchCountry_empty lower client cache _ hb]
  by_cases hn : queryGet r.Query "name" = ""
  · rw [handle_get_empty _ cache r hm hn]
    exact ⟨fun _ => rfl, fun h => absurd hn h⟩
  · rw [handle_get_error _ cache cache r none _ hm hn hsvc]
    exact ⟨fun h => absurd h hn, fun _ => ⟨rfl, rfl⟩⟩

theorem blank_name_status_witness :
    blankNameRequest.Method = "GET" ∧
    TrimSpace (queryGet blankNameRequest.Query "name") = "" ∧
    queryGet blankNameRequest.Query "name" ≠ "" ∧
    ((handleSearchCountry (countryService Char.toLower germanyClient) NewInMemoryCache
        blankNameRequest).response.status = 404 ∧
      (handleSearchCountry (countryService Char.toLower germanyClient) NewInMemoryCache
        blankNameRequest).response.body =
        JSON.obj [("error", JSON.str "Not Found"),
          ("message", JSON.str "SearchCountry: country name cannot be empty")]) ∧
    emptyNameRequest.Method = "GET" ∧
    TrimSpace (queryGet emptyNameRequest.Query "name") = "" ∧
    (handleSearchCountry (countryService Char.toLower germanyClient) NewInMemoryCache
      emptyNameRequest).response.status = 400 :=
  have h1 : TrimSpace (queryGet blankNameRequest.Query "name") = "" := by decide
  have h2 : queryGet blankNameRequest.Query "name" ≠ "" := by decide
  have h3 : TrimSpace (queryGet emptyNameRequest.Query "name") = "" := by decide
  ⟨rfl, h1, h2,
    (blank_name_status Char.toLower germanyClient NewInMemoryCache blankNameRequest
      rfl h1).2 h2,
    rfl, h3,
    (blank_name_status Char.toLower germanyClient NewInMemoryCache emptyNameRequest
      rfl h3).1 (by decide)⟩

/-- C10: for every GET request whose `name` query parameter is missing (no binding, or a
binding without values) or is the empty string, the handler responds with status 400,
Content-Type application/json and the error body with error "Bad Request" and message
"name query parameter is required"; the lookup service is not invoked and its state is
unchanged. -/
theorem missing_name_bad_request {σ : Type} (service : CountryService σ) (st : σ)
    (r : Request) (hm : r.Method = "GET")
    (hn : r.Query.lookup "name" = none ∨ r.Query.lookup "name" = some [] ∨
      ∃ more, r.Query.lookup "name" = some ("" :: more)) :
    (handleSearchCountry service st r).response.status = 400 ∧
    (handleSearchCountry service st r).response.contentType = "application/json" ∧
    (handleSearchCountry service st r).response.body =
      JSON.obj [("error", JSON.str "Bad Request"),
        ("message", JSON.str "name query parameter is required")] ∧
    (handleSearchCountry service st r).calls = [] ∧
    (handleSearchCountry service st r).state = st := by
  have hq : queryGet r.Query "name" = "" := by
    rcases hn with h | h | ⟨more, h⟩ <;> simp [queryGet, h]
  rw [handle_get_empty service st r hm hq]
  exact ⟨rfl, rfl, rfl, rfl, rfl⟩

theorem missing_name_bad_request_witness :
    (missingNameRequest.Method = "GET" ∧
      missingNameRequest.Query.lookup "name" = none ∧
      (handleSearchCountry (countryService Char.toLower germanyClient) NewInMemoryCache
        missingNameRequest).response.status = 400 ∧
      (handleSearchCountry (countryService Char.toLower germanyClient) NewInMemoryCache
        missingNameRequest).response.contentType = "application/json" ∧
      (handleSearchCountry (countryService Char.toLower germanyClient) NewInMemoryCache
        missingNameRequest).response.body =
        JSON.obj [("error", JSON.str "Bad Request"),
          ("message", JSON.str "name query parameter is required")] ∧
      (handleSearchCountry (countryService Char.toLower germanyClient) NewInMemoryCache
        missingNameRequest).calls = [] ∧
      (handleSearchCountry (countryService Char.toLower germanyClient) NewInMemoryCache
        missingNameRequest).state = NewInMemoryCache) ∧
    (emptyNameRequest.Method = "GET" ∧
      (∃ more, emptyNameRequest.Query.lookup "name" = some ("" :: more)) ∧
      (handleSearchCountry (countryService Char.toLower germanyClient) NewInMemoryCache
        emptyNameRequest).response.status = 400) :=
  have h1 : missingNameRequest.Query.lookup "name" = none := by decide
  have h2 : ∃ more, emptyNameRequest.Query.lookup "name" = some ("" :: more) :=
    ⟨[], by decide⟩
  ⟨⟨rfl, h1, missing_name_bad_request (countryService Char.toLower germanyClient)
      NewInMemoryCache missingNameRequest rfl (Or.inl h1)⟩,
    ⟨rfl, h2, (missing_name_bad_request (countryService Char.toLower germanyClient)
      NewInMemoryCache emptyNameRequest rfl (Or.inr (Or.inr h2))).1⟩⟩

theorem handle_not_get {σ : Type} (service : CountryService σ) (st : σ) (r : Request)
    (hm : r.Method ≠ "GET") :
    handleSearchCountry service st r = ⟨writeError 405 "method not allowed", st, []⟩ := by
  simp [handleSearchCountry, hm]

theorem handle_get_ok {σ : Type} (service : CountryService σ) (st st' : σ) (r : Request)
    (country : Option Country)
    (hm : r.Method = "GET") (hn : queryGet r.Query "name" ≠ "")
    (hs : service st (queryGet r.Query "name") = ((country, none), st')) :
    handleSearchCountry service st r =
      ⟨writeJSON 200 (encodeCountry country), st', [queryGet r.Query "name"]⟩ := by
  simp [handleSearchCountry, hm, hn, hs]

/-- C11: for every request whose method is not GET, whatever its query (a missing `name`
included), the handler responds with status 405 and the error body with error
"Method Not Allowed" and message "method not allowed"; the lookup service is not invoked
and its state is unchanged. -/
theorem non_get_method_not_allowed {σ : Type} (service : CountryService σ) (st : σ)
    (r : Request) (hm : r.Method ≠ "GET") :
    (handleSearchCountry service st r).response.status = 405 ∧
    (handleSearchCountry service st r).response.body =
      JSON.obj [("error", JSON.str "Method Not Allowed"),
        ("message", JSON.str "method not allowed")] ∧
    (handleSearchCountry service st r).calls = [] ∧
    (handleSearchCountry service st r).state = st := by
  rw [handle_not_get service st r hm]
  exact ⟨rfl, rfl, rfl, rfl⟩

theorem non_get_method_not_allowed_witness :
    (postGermanyRequest.Method ≠ "GET" ∧
      (handleSearchCountry (countryService Char.toLower germanyClient) NewInMemoryCache
        postGermanyRequest).response.status = 405 ∧
      (handleSearchCountry (countryService Char.toLower germanyClient) NewInMemoryCache
        postGermanyRequest).response.body =
        JSON.obj [("error", JSON.str "Method Not Allowed"),
          ("message", JSON.str "method not allowed")] ∧
      (handleSearchCountry (countryService Char.toLower germanyClient) NewInMemoryCache
        postGermanyRequest).calls = [] ∧
      (handleSearchCountry (countryService Char.toLower germanyClient) NewInMemoryCache
        postGermanyRequest).state = NewInMemoryCache) ∧
    (deleteRequest.Method ≠ "GET" ∧
      (handleSearchCountry (countryService Char.toLower germanyClient) NewInMemoryCache
        deleteRequest).response.status = 405) :=
  have h1 : postGermanyRequest.Method ≠ "GET" := by decide
  have h2 : deleteRequest.Method ≠ "GET" := by decide
  ⟨⟨h1, non_get_method_not_allowed (countryService Char.toLower germanyClient)
      NewInMemoryCache postGermanyRequest h1⟩,
    ⟨h2, (non_get_method_not_allowed (countryService Char.toLower germanyClient)
      NewInMemoryCache deleteRequest h2).1⟩⟩

theorem append_ne_empty (a b : String) (ha : a ≠ "") : a ++ b ≠ "" := by
  intro h
  have hlen := congrArg String.length h
  have hzero : a.length = 0 := by
    simp only [String.length_append] at hlen
    exact Nat.eq_zero_of_add_eq_zero_right hlen
  apply ha
  cases a with
  | mk d =>
    have hd : d = [] := List.length_eq_zero.mp hzero
    rw [hd]

theorem searchCountry_err_nonempty (lower : Char → Char) (client : CountryClient)
    (cache : InMemoryCache) (name e : String)
    (herr : (SearchCountry lower client cache name).err = some e) : e ≠ "" := by
  by_cases h : TrimSpace name = ""
  · rw [searchCountry_empty lower client cache name h] at herr
    injection herr with herr
    rw [← herr]
    decide
  · rcases hit_or_miss cache (ToLower lower (TrimSpace name)) with ⟨q, hq⟩ | hmiss
    · rw [searchCountry_hit lower client cache name q h hq] at herr
      exact absurd herr (by simp)
    · rw [searchCountry_miss lower client cache name h hmiss] at herr
      split at herr
      · injection herr with herr
        rw [← herr]
        exact append_ne_empty _ _ (by decide)
      · injection herr with herr
        rw [← herr]
        exact append_ne_empty _ _ (by decide)
      · exact absurd herr (by simp)

/-- C12: for every GET request with a non-empty `name` and every error `e` returned by the
lookup service, whatever its cause (and whatever Country comes with it), the handler
responds with status 404 and writes the error body with error "Not Found" and message
the message of `e`; when that message is non-empty, as every error message of
`SearchCountry` is, the JSON object has exactly these two fields. The service is called
once, with the name as given. -/
theorem service_error_not_found {σ : Type} (service : CountryService σ) (st st' : σ)
    (r : Request) (country : Option Country) (e : String)
    (hm : r.Method = "GET") (hn : queryGet r.Query "name" ≠ "")
    (hs : service st (queryGet r.Query "name") = ((country, some e), st')) :
    (handleSearchCountry service st r).response.status = 404 ∧
    (handleSearchCountry service st r).response.body = encodeError ⟨"Not Found", e⟩ ∧
    (e ≠ "" → (handleSearchCountry service st r).response.body =
      JSON.obj [("error", JSON.str "Not Found"), ("message", JSON.str e)]) ∧
    (handleSearchCountry service st r).calls = [queryGet r.Query "name"] ∧
    ∀ (lower : Char → Char) (client : CountryClient) (cache : InMemoryCache)
      (name msg : String),
      (SearchCountry lower client cache name).err = some msg → msg ≠ "" := by
  rw [handle_get_error service st st' r country e hm hn hs]
  refine ⟨rfl, rfl, ?_, rfl, searchCountry_err_nonempty⟩
  intro he
  simp [writeError, writeJSON, encodeError, StatusText, he]

theorem service_error_not_found_witness :
    getAtlantisRequest.Method = "GET" ∧
    queryGet getAtlantisRequest.Query "name" ≠ "" ∧
    countryService Char.toLower failingClient NewInMemoryCache
        (queryGet getAtlantisRequest.Query "name") =
      ((none, some ("SearchCountry: failed to search country by name: " ++
        "SearchCountryByName: request execution failed: timeout")), NewInMemoryCache) ∧
    ((handleSearchCountry (countryService Char.toLower failingClient) NewInMemoryCache
        getAtlantisRequest).response.status = 404 ∧
      (handleSearchCountry (countryService Char.toLower failingClient) NewInMemoryCache
        getAtlantisRequest).response.body =
        JSON.obj [("error", JSON.str "Not Found"),
          ("message", JSON.str ("SearchCountry: failed to search country by name: " ++
            "SearchCountryByName: request execution failed: timeout"))]) :=
  have h2 : queryGet getAtlantisRequest.Query "name" ≠ "" := by decide
  have h3 : countryService Char.toLower failingClient NewInMemoryCache
        (queryGet getAtlantisRequest.Query "name") =
      ((none, some ("SearchCountry: failed to search country by name: " ++
        "SearchCountryByName: request execution failed: timeout")), NewInMemoryCache) := by
    decide
  have h := service_error_not_found (countryService Char.toLower failingClient)
    NewInMemoryCache NewInMemoryCache getAtlantisRequest none _ rfl h2 h3
  ⟨rfl, h2, h3, h.1, h.2.2.1 (by decide)⟩

/-- C13: for every GET request with a non-empty `name` for which the lookup service
returns a Country `c` and no error, the handler responds with status 200, Content-Type
application/json and the JSON object with exactly the fields `name`, `capital`,
`currency`, `population`, in this order, carrying the four values of `c`. -/
theorem success_response_format {σ : Type} (service : CountryService σ) (st st' : σ)
    (r : Request) (c : Country)
    (hm : r.Method = "GET") (hn : queryGet r.Query "name" ≠ "")
    (hs : service st (queryGet r.Query "name") = ((some c, none), st')) :
    (handleSearchCountry service st r).response.status = 200 ∧
    (handleSearchCountry service st r).response.contentType = "application/json" ∧
    (handleSearchCountry service st r).response.body =
      JSON.obj [("name", JSON.str c.Name), ("capital", JSON.str c.Capital),
        ("currency", JSON.str c.Currency), ("population", JSON.num c.Population)] := by
  rw [handle_get_ok service st st' r (some c) hm hn hs]
  exact ⟨rfl, rfl, rfl⟩

theorem success_response_format_witness :
    getGermanyRequest.Method = "GET" ∧
    queryGet getGermanyRequest.Query "name" ≠ "" ∧
    countryService Char.toLower germanyClient NewInMemoryCache
        (queryGet getGermanyRequest.Query "name") =
      ((some ⟨"Germany", "Berlin", "€", 83240525⟩, none),
        NewInMemoryCache.Set "germany"
          (Value.country (some ⟨"Germany", "Berlin", "€", 83240525⟩))) ∧
    ((handleSearchCountry (countryService Char.toLower germanyClient) NewInMemoryCache
        getGermanyRequest).response.status = 200 ∧
      (handleSearchCountry (countryService Char.toLower germanyClient) NewInMemoryCache
        getGermanyRequest).response.contentType = "application/json" ∧
      (handleSearchCountry (countryService Char.toLower germanyClient) NewInMemoryCache
        getGermanyRequest).response.body =
        JSON.obj [("name", JSON.str "Germany"), ("capital", JSON.str "Berlin"),
          ("currency", JSON.str "€"), ("population", JSON.num 83240525)]) :=
  have h2 : queryGet getGermanyRequest.Query "name" ≠ "" := by decide
  have h3 : countryService Char.toLower germanyClient NewInMemoryCache
        (queryGet getGermanyRequest.Query "name") =
      ((some ⟨"Germany", "Berlin", "€", 83240525⟩, none),
        NewInMemoryCache.Set "germany"
          (Value.country (some ⟨"Germany", "Berlin", "€", 83240525⟩))) := by
    decide
  ⟨rfl, h2, h3, success_response_format (countryService Char.toLower germanyClient)
    NewInMemoryCache _ getGermanyRequest ⟨"Germany", "Berlin", "€", 83240525⟩ rfl h2 h3⟩

/-! ## The in-memory cache -/

/-- C14: `InMemoryCache.Set` is a point update: for every cache state, keys `k`, `k'` and
value `v`, after `Set k v` the call `Get k'` returns `(v, true)` when `k' = k`, whatever
was stored under `k` before, and what it returned before the `Set` when `k' ≠ k`; on a new
cache `Get` returns `(nil, false)` for every key. -/
theorem set_point_update (c : InMemoryCache) (k k' : String) (v : Value) :
    (c.Set k v).Get k' = (if k' = k then (v, true) else c.Get k') ∧
    NewInMemoryCache.Get k' = (Value.nil, false) := by
  refine ⟨?_, rfl⟩
  by_cases h : k' = k
  · rw [if_pos h, h]
    exact get_set_self c k v
  · rw [if_neg h]
    exact get_set_of_ne c k k' v h

/-- C16: for every cache state, key `k` and value `v`, the cache after `Set k v` followed
by `Set k v` is the cache after a single `Set k v`, so `Get` returns the same result for
every key in both. -/
theorem set_twice_same (c : InMemoryCache) (k : String) (v : Value) :
    (c.Set k v).Set k v = c.Set k v ∧
    ∀ k', ((c.Set k v).Set k v).Get k' = (c.Set k v).Get k' := by
  have h : (c.Set k v).Set k v = c.Set k v := by
    simp [InMemoryCache.Set, List.filter_cons, List.filter_filter]
  exact ⟨h, fun k' => by rw [h]⟩

/-! ## The upstream client -/

/-- C15: for every upstream response received by `SearchCountryByName name`: with status
404 it returns the error "SearchCountryByName: country not found: " followed by the name;
with a status that is neither 200 nor 404 it returns the error "SearchCountryByName:
unexpected status code: " followed by the decimal value of the status; with a status
other than 200 the result does not depend on the decoder; with status 200 the result is
that of the decoder, a decoding error `e` being returned as an error whose message
contains "failed to decode". -/
theorem upstream_status_mapping (c : HTTPClient) (name req : String) (resp : HTTPResponse)
    (hreq : c.NewRequest (c.endpoint name) = .ok req) (hdo : c.Do req = .ok resp) :
    (resp.StatusCode = 404 →
      c.SearchCountryByName name =
        .error ("SearchCountryByName: country not found: " ++ name) ∧
      Contains ("SearchCountryByName: country not found: " ++ name) "country not found" ∧
      Contains ("SearchCountryByName: country not found: " ++ name) name) ∧
    (resp.StatusCode ≠ 200 → resp.StatusCode ≠ 404 →
      c.SearchCountryByName name =
        .error ("SearchCountryByName: unexpected status code: " ++
          toString resp.StatusCode) ∧
      Contains ("SearchCountryByName: unexpected status code: " ++ toString resp.StatusCode)
        "unexpected status code" ∧
      Contains ("SearchCountryByName: unexpected status code: " ++ toString resp.StatusCode)
        (toString resp.StatusCode)) ∧
    (resp.StatusCode ≠ 200 → ∀ decode,
      (withDecoder c decode).SearchCountryByName name = c.SearchCountryByName name) ∧
    (resp.StatusCode = 200 → ∀ countries, c.Decode resp.Body = .ok countries →
      c.SearchCountryByName name = .ok countries) ∧
    (resp.StatusCode = 200 → ∀ e, c.Decode resp.Body = .error e →
      c.SearchCountryByName name =
        .error ("SearchCountryByName: failed to decode response: " ++ e) ∧
      Contains ("SearchCountryByName: failed to decode response: " ++ e)
        "failed to decode") := by
  have hreq' : ∀ decode, (withDecoder c decode).NewRequest
      ((withDecoder c decode).endpoint name) = .ok req := fun _ => hreq
  have hdo' : ∀ decode, (withDecoder c decode).Do req = .ok resp := fun _ => hdo
  refine ⟨?_, ?_, ?_, ?_, ?_⟩
  · intro hs
    refine ⟨by simp [HTTPClient.SearchCountryByName, hreq, hdo, hs], ?_, ?_⟩
    · apply contains_append_left
      decide
    · exact contains_append_right _ _ _ (contains_self _)
  · intro h200 h404
    refine ⟨by simp [HTTPClient.SearchCountryByName, hreq, hdo, h200, h404], ?_, ?_⟩
    · apply contains_append_left
      decide
    · exact contains_append_right _ _ _ (contains_self _)
  · intro h200 decode
    by_cases h404 : resp.StatusCode = 404
    · simp [HTTPClient.SearchCountryByName, hreq, hdo, hreq' decode, hdo' decode, h404]
    · simp [HTTPClient.SearchCountryByName, hreq, hdo, hreq' decode, hdo' decode, h404,
        h200]
  · intro hs countries hd
    simp [HTTPClient.SearchCountryByName, hreq, hdo, hs, hd]
  · intro hs e hd
    refine ⟨by simp [HTTPClient.SearchCountryByName, hreq, hdo, hs, hd], ?_⟩
    apply contains_append_left
    decide

theorem upstream_status_mapping_witness :
    (serverErrorUpstream.NewRequest (serverErrorUpstream.endpoint "Germany") =
        .ok "https://restcountries.com/v3.1/name/Germany?fullText=true" ∧
      serverErrorUpstream.Do "https://restcountries.com/v3.1/name/Germany?fullText=true" =
        .ok ⟨500, ""⟩ ∧
      serverErrorUpstream.SearchCountryByName "Germany" =
        .error ("SearchCountryByName: unexpected status code: " ++ toString (500 : Int)) ∧
      Contains ("SearchCountryByName: unexpected status code: " ++ toString (500 : Int))
        "unexpected status code" ∧
      Contains ("SearchCountryByName: unexpected status code: " ++ toString (500 : Int))
        "500") ∧
    (notFoundUpstream.SearchCountryByName "Atlantis" =
        .error ("SearchCountryByName: country not found: " ++ "Atlantis") ∧
      Contains ("SearchCountryByName: country not found: " ++ "Atlantis")
        "country not found" ∧
      Contains ("SearchCountryByName: country not found: " ++ "Atlantis") "Atlantis") ∧
    (invalidBodyUpstream.SearchCountryByName "Germany" =
        .error ("SearchCountryByName: failed to decode response: " ++ "invalid character") ∧
      Contains ("SearchCountryByName: failed to decode response: " ++ "invalid character")
        "failed to decode") :=
  ⟨⟨rfl, rfl,
      (upstream_status_mapping serverErrorUpstream "Germany" _ ⟨500, ""⟩ rfl rfl).2.1
        (by decide) (by decide)⟩,
    (upstream_status_mapping notFoundUpstream "Atlantis" _ ⟨404, ""⟩ rfl rfl).1 rfl,
    (upstream_status_mapping invalidBodyUpstream "Germany" _ ⟨200, "invalid json"⟩
      rfl rfl).2.2.2.2 rfl "invalid character" rfl⟩

/-! ## Normalization: population and the order of the currency entries -/

/-- C17 (as stated, refuted): a record with population -1 is normalized to a Country
with population -1, which is negative. -/
theorem population_nonneg_refuted :
    (transformToCountry negativeRecord).Population = -1 ∧
    ¬ (0 ≤ (transformToCountry negativeRecord).Population) := by
  decide

/-- C17 (amended): normalization copies the population as it is: for every upstream
record `r`, the population of `transformToCountry r` is that of `r`, so it is
non-negative exactly when the population of `r` is. -/
theorem population_copied (r : RESTCountryResponse) :
    (transformToCountry r).Population = r.Population ∧
    (0 ≤ (transformToCountry r).Population ↔ 0 ≤ r.Population) :=
  ⟨rfl, Iff.rfl⟩

theorem currencyLoop_eq_empty_iff (entries : List (String × CurrencyInfo)) :
    currencyLoop entries = "" ↔ ∀ e ∈ entries, e.2.Symbol = "" ∧ e.2.Name = "" := by
  induction entries with
  | nil => simp [currencyLoop]
  | cons entry rest ih =>
    obtain ⟨code, currency⟩ := entry
    by_cases hs : currency.Symbol = ""
    · by_cases hn : currency.Name = ""
      · simp [currencyLoop, hs, hn, ih]
      · simp [currencyLoop, hs, hn]
    · simp [currencyLoop, hs]

theorem currencyLoop_from_entry (entries : List (String × CurrencyInfo))
    (h : currencyLoop entries ≠ "") :
    ∃ e ∈ entries, currencyLoop entries = e.2.Symbol ∨ currencyLoop entries = e.2.Name := by
  induction entries with
  | nil => exact absurd rfl h
  | cons entry rest ih =>
    obtain ⟨code, currency⟩ := entry
    by_cases hs : currency.Symbol = ""
    · by_cases hn : currency.Name = ""
      · have hrest : currencyLoop ((code, currency) :: rest) = currencyLoop rest := by
          simp [currencyLoop, hs, hn]
        rw [hrest] at h ⊢
        obtain ⟨e, he, hval⟩ := ih h
        exact ⟨e, List.mem_cons_of_mem _ he, hval⟩
      · exact ⟨(code, currency), List.mem_cons_self _ _,
          Or.inr (by simp [currencyLoop, hs, hn])⟩
    · exact ⟨(code, currency), List.mem_cons_self _ _, Or.inl (by simp [currencyLoop, hs])⟩

/-- C18: for every record and every iteration order of its currency map,
`transformToCountry` returns a Country whose Currency is the empty string exactly when no
entry has a non-empty symbol or a non-empty name (so for an empty or absent map), and is
otherwise the symbol or the name of one of the entries. -/
theorem currency_empty_iff (r : RESTCountryResponse) (order : List (String × CurrencyInfo))
    (hperm : order.Perm r.Currencies) :
    ((transformToCountry (withOrder r order)).Currency = "" ↔
      ∀ e ∈ r.Currencies, e.2.Symbol = "" ∧ e.2.Name = "") ∧
    ((transformToCountry (withOrder r order)).Currency ≠ "" →
      ∃ e ∈ r.Currencies, (transformToCountry (withOrder r order)).Currency = e.2.Symbol ∨
        (transformToCountry (withOrder r order)).Currency = e.2.Name) ∧
    (r.Currencies = [] → (transformToCountry (withOrder r order)).Currency = "") := by
  have hcur : (transformToCountry (withOrder r order)).Currency = currencyLoop order := rfl
  have hempty : currencyLoop order = "" ↔
      ∀ e ∈ r.Currencies, e.2.Symbol = "" ∧ e.2.Name = "" := by
    rw [currencyLoop_eq_empty_iff]
    exact ⟨fun h e he => h e (hperm.mem_iff.mpr he), fun h e he => h e (hperm.mem_iff.mp he)⟩
  rw [hcur]
  refine ⟨hempty, ?_, ?_⟩
  · intro h
    obtain ⟨e, he, hval⟩ := currencyLoop_from_entry order h
    exact ⟨e, hperm.mem_iff.mp he, hval⟩
  · intro hnil
    apply hempty.mpr
    intro e he
    rw [hnil] at he
    exact absurd he (List.not_mem_nil e)

theorem currency_empty_iff_witness :
    [("BBB", (⟨"Euro", "€"⟩ : CurrencyInfo)), ("AAA", ⟨"Dollar", ""⟩)].Perm
      twoCurrencyRecord.Currencies ∧
    (transformToCountry (withOrder twoCurrencyRecord
      [("BBB", ⟨"Euro", "€"⟩), ("AAA", ⟨"Dollar", ""⟩)])).Currency ≠ "" ∧
    (∃ e ∈ twoCurrencyRecord.Currencies,
      (transformToCountry (withOrder twoCurrencyRecord
        [("BBB", ⟨"Euro", "€"⟩), ("AAA", ⟨"Dollar", ""⟩)])).Currency = e.2.Symbol ∨
      (transformToCountry (withOrder twoCurrencyRecord
        [("BBB", ⟨"Euro", "€"⟩), ("AAA", ⟨"Dollar", ""⟩)])).Currency = e.2.Name) ∧
    [].Perm negativeRecord.Currencies ∧
    (transformToCountry (withOrder negativeRecord [])).Currency = "" :=
  have h1 : [("BBB", (⟨"Euro", "€"⟩ : CurrencyInfo)), ("AAA", ⟨"Dollar", ""⟩)].Perm
      twoCurrencyRecord.Currencies := List.Perm.swap _ _ _
  have h2 : (transformToCountry (withOrder twoCurrencyRecord
      [("BBB", ⟨"Euro", "€"⟩), ("AAA", ⟨"Dollar", ""⟩)])).Currency ≠ "" := by decide
  have h3 : [].Perm negativeRecord.Currencies := List.Perm.nil
  ⟨h1, h2, (currency_empty_iff twoCurrencyRecord _ h1).2.1 h2,
    h3, (currency_empty_iff negativeRecord [] h3).2.2 rfl⟩

/-- C20: the chosen currency is not deterministic: there is a record with more than one
currency entry (under distinct codes) and two iteration orders of its currency map under
which `transformToCountry` yields different Currency values; Name, Capital and Population
are the same under every order. -/
theorem currency_depends_on_order :
    (∃ (r : RESTCountryResponse) (first second : List (String × CurrencyInfo)),
      1 < r.Currencies.length ∧ (r.Currencies.map Prod.fst).Nodup ∧
      first.Perm r.Currencies ∧ second.Perm r.Currencies ∧
      (transformToCountry (withOrder r first)).Currency ≠
        (transformToCountry (withOrder r second)).Currency) ∧
    ∀ (r : RESTCountryResponse) (order : List (String × CurrencyInfo)),
      (transformToCountry (withOrder r order)).Name = (transformToCountry r).Name ∧
      (transformToCountry (withOrder r order)).Capital = (transformToCountry r).Capital ∧
      (transformToCountry (withOrder r order)).Population =
        (transformToCountry r).Population := by
  refine ⟨⟨twoCurrencyRecord, twoCurrencyRecord.Currencies,
    [("BBB", ⟨"Euro", "€"⟩), ("AAA", ⟨"Dollar", ""⟩)], by decide, by decide,
    List.Perm.refl _, List.Perm.swap _ _ _, by decide⟩, ?_⟩
  intro r order
  exact ⟨rfl, rfl, rfl⟩

/-! ## The lookup service: a cached value of another type -/

/-- C19: for a name with a non-empty trimmed form, when the cache holds under
`lowercase(trim(name))` a value that is not a `*model.Country`, `SearchCountry` returns
the Country and error and makes the calls it makes on any cache without an entry for the
key: it calls the client and, on a non-empty response, succeeds with the normalized first
record and overwrites the entry with it. -/
theorem non_country_entry_is_miss (lower : Char → Char) (client : CountryClient)
    (cache : InMemoryCache) (name : String) (v : Value) (hne : TrimSpace name ≠ "")
    (hget : cache.Get (ToLower lower (TrimSpace name)) = (v, true))
    (hv : ∀ p, v ≠ Value.country p) :
    (∀ fresh : InMemoryCache, (fresh.Get (ToLower lower (TrimSpace name))).2 = false →
      (SearchCountry lower client cache name).country =
        (SearchCountry lower client fresh name).country ∧
      (SearchCountry lower client cache name).err =
        (SearchCountry lower client fresh name).err ∧
      (SearchCountry lower client cache name).events =
        (SearchCountry lower client fresh name).events) ∧
    Event.clientCall (TrimSpace name) ∈ (SearchCountry lower client cache name).events ∧
    (∀ first rest, client (TrimSpace name) = .ok (first :: rest) →
      (SearchCountry lower client cache name).err = none ∧
      (SearchCountry lower client cache name).country = some (transformToCountry first) ∧
      (SearchCountry lower client cache name).cache.Get (ToLower lower (TrimSpace name)) =
        (Value.country (some (transformToCountry first)), true)) := by
  have hmiss : ∀ p, cache.Get (ToLower lower (TrimSpace name)) ≠ (Value.country p, true) := by
    intro p hp
    rw [hget] at hp
    injection hp with hp _
    exact hv p hp
  rw [searchCountry_miss lower client cache name hne hmiss]
  refine ⟨?_, ?_, ?_⟩
  · intro fresh hfresh
    rw [searchCountry_miss lower client fresh name hne (get_false_miss fresh _ hfresh)]
    cases hcl : client (TrimSpace name) with
    | error e => exact ⟨rfl, rfl, rfl⟩
    | ok records =>
      cases records with
      | nil => exact ⟨rfl, rfl, rfl⟩
      | cons first rest => exact ⟨rfl, rfl, rfl⟩
  · cases hcl : client (TrimSpace name) with
    | error e => simp
    | ok records =>
      cases records with
      | nil => simp
      | cons first rest => simp
  · intro first rest hcl
    rw [hcl]
    exact ⟨rfl, rfl, get_set_self cache _ _⟩

theorem non_country_entry_is_miss_witness :
    TrimSpace "Germany" ≠ "" ∧
    (NewInMemoryCache.Set "germany" (Value.other 7)).Get
      (ToLower Char.toLower (TrimSpace "Germany")) = (Value.other 7, true) ∧
    (∀ p, Value.other 7 ≠ Value.country p) ∧
    (NewInMemoryCache.Get (ToLower Char.toLower (TrimSpace "Germany"))).2 = false ∧
    ((SearchCountry Char.toLower germanyClient
        (NewInMemoryCache.Set "germany" (Value.other 7)) "Germany").country =
        (SearchCountry Char.toLower germanyClient NewInMemoryCache "Germany").country ∧
      (SearchCountry Char.toLower germanyClient
        (NewInMemoryCache.Set "germany" (Value.other 7)) "Germany").err =
        (SearchCountry Char.toLower germanyClient NewInMemoryCache "Germany").err ∧
      (SearchCountry Char.toLower germanyClient
        (NewInMemoryCache.Set "germany" (Value.other 7)) "Germany").events =
        (SearchCountry Char.toLower germanyClient NewInMemoryCache "Germany").events) ∧
    ((SearchCountry Char.toLower germanyClient
        (NewInMemoryCache.Set "germany" (Value.other 7)) "Germany").err = none ∧
      (SearchCountry Char.toLower germanyClient
        (NewInMemoryCache.Set "germany" (Value.other 7)) "Germany").country =
        some (transformToCountry germanyRecord) ∧
      (SearchCountry Char.toLower germanyClient
        (NewInMemoryCache.Set "germany" (Value.other 7)) "Germany").cache.Get
          (ToLower Char.toLower (TrimSpace "Germany")) =
        (Value.country (some (transformToCountry germanyRecord)), true)) :=
  have h1 : TrimSpace "Germany" ≠ "" := by decide
  have h2 : (NewInMemoryCache.Set "germany" (Value.other 7)).Get
      (ToLower Char.toLower (TrimSpace "Germany")) = (Value.other 7, true) := by decide
  have h3 : ∀ p, Value.other 7 ≠ Value.country p := fun _ h => Value.noConfusion h
  have h4 : (NewInMemoryCache.Get (ToLower Char.toLower (TrimSpace "Germany"))).2 = false :=
    by decide
  have h := non_country_entry_is_miss Char.toLower germanyClient
    (NewInMemoryCache.Set "germany" (Value.other 7)) "Germany" (Value.other 7) h1 h2 h3
  ⟨h1, h2, h3, h4, h.1 NewInMemoryCache h4,
    h.2.2 germanyRecord [twoCurrencyRecord] rfl⟩

end CountrySearch
